import Mathlib

/-!
Verification development for the sedly-blockchain repository.

Bytes are modelled as `Nat` values below 256, byte strings as `List Nat`,
and the Rust `[u8; 32]` arrays as lists of length 32.  Machine integers
(`u32`, `u64`) are modelled as `Nat` with explicit `% 2^32` / `% 2^64`
where the Rust code can wrap.  Rust panics (index underflow / out of
bounds) are modelled with `Option`, `none` meaning the function panics.
-/

namespace Sedly

/-- 2^32 truncation for 32-bit words. -/
def w32 (n : Nat) : Nat := n % 4294967296

/-- 2^64 truncation for 64-bit words. -/
def w64 (n : Nat) : Nat := n % 18446744073709551616

/-- Right rotation of a 32-bit word. -/
def rotr (n x : Nat) : Nat := w32 ((x >>> n) ||| (x <<< (32 - n)))

/-- SHA-256 message-schedule sigma 0 (rotations by 7 and 18, shift by 3). -/
def schedS0 (x : Nat) : Nat := (rotr 7 x) ^^^ ((rotr 18 x) ^^^ (x >>> 3))

/-- SHA-256 message-schedule sigma 1 (rotations by 17 and 19, shift by 10). -/
def schedS1 (x : Nat) : Nat := (rotr 17 x) ^^^ ((rotr 19 x) ^^^ (x >>> 10))

/-- SHA-256 compression Sigma 0 (rotations by 2, 13 and 22). -/
def roundS0 (x : Nat) : Nat := (rotr 2 x) ^^^ ((rotr 13 x) ^^^ (rotr 22 x))

/-- SHA-256 compression Sigma 1 (rotations by 6, 11 and 25). -/
def roundS1 (x : Nat) : Nat := (rotr 6 x) ^^^ ((rotr 11 x) ^^^ (rotr 25 x))

/-- The 64 SHA-256 round constants of FIPS 180-4, written in decimal. -/
def shaK : List Nat :=
  [1116352408, 1899447441, 3049323471, 3921009573, 961987163, 1508970993,
   2453635748, 2870763221, 3624381080, 310598401, 607225278, 1426881987,
   1925078388, 2162078206, 2614888103, 3248222580, 3835390401, 4022224774,
   264347078, 604807628, 770255983, 1249150122, 1555081692, 1996064986,
   2554220882, 2821834349, 2952996808, 3210313671, 3336571891, 3584528711,
   113926993, 338241895, 666307205, 773529912, 1294757372, 1396182291,
   1695183700, 1986661051, 2177026350, 2456956037, 2730485921, 2820302411,
   3259730800, 3345764771, 3516065817, 3600352804, 4094571909, 275423344,
   430227734, 506948616, 659060556, 883997877, 958139571, 1322822218,
   1537002063, 1747873779, 1955562222, 2024104815, 2227730452, 2361852424,
   2428436474, 2756734187, 3204031479, 3329325298]

/-- SHA-256 initial hash state. -/
structure H8 where
  a : Nat
  b : Nat
  c : Nat
  d : Nat
  e : Nat
  f : Nat
  g : Nat
  h : Nat
deriving Repr, DecidableEq

/-- SHA-256 initial state. -/
def shaH0 : H8 :=
  ⟨1779033703, 3144134277, 1013904242, 2773480762,
   1359893119, 2600822924, 528734635, 1541459225⟩

/-- Extend the message schedule by one word. -/
def wStep (w : List Nat) : List Nat :=
  let n := w.length
  w ++ [w32 (w.getD (n - 16) 0 + schedS0 (w.getD (n - 15) 0) +
             w.getD (n - 7) 0 + schedS1 (w.getD (n - 2) 0))]

/-- Extend the 16-word message schedule by `k` further words. -/
def wExtend : List Nat → Nat → List Nat
  | w, 0 => w
  | w, k + 1 => wExtend (wStep w) k

/-- One SHA-256 compression round. -/
def shaRound (st : H8) (kw : Nat × Nat) : H8 :=
  let ch := (st.e &&& st.f) ^^^ ((st.e ^^^ 0xffffffff) &&& st.g)
  let maj := (st.a &&& st.b) ^^^ (st.a &&& st.c) ^^^ (st.b &&& st.c)
  let t1 := w32 (st.h + roundS1 st.e + ch + kw.1 + kw.2)
  let t2 := w32 (roundS0 st.a + maj)
  ⟨w32 (t1 + t2), st.a, st.b, st.c, w32 (st.d + t1), st.e, st.f, st.g⟩

/-- Compress one 512-bit block given as 16 big-endian 32-bit words. -/
def shaCompress (st : H8) (blockWords : List Nat) : H8 :=
  let w := wExtend blockWords 48
  let r := (shaK.zip w).foldl shaRound st
  ⟨w32 (st.a + r.a), w32 (st.b + r.b), w32 (st.c + r.c), w32 (st.d + r.d),
   w32 (st.e + r.e), w32 (st.f + r.f), w32 (st.g + r.g), w32 (st.h + r.h)⟩

/-- Group bytes into big-endian 32-bit words (input length a multiple of 4). -/
def bytesToWords : List Nat → List Nat
  | b0 :: b1 :: b2 :: b3 :: rest => (((b0 * 256 + b1) * 256 + b2) * 256 + b3) :: bytesToWords rest
  | _ => []

/-- Split a byte string into 64-byte blocks.  Structural recursion on a
fuel argument so that the kernel can evaluate it; each step consumes at
least one element, so `l.length` fuel always suffices. -/
def toBlocksFuel : Nat → List Nat → List (List Nat)
  | _, [] => []
  | 0, _ :: _ => []
  | fuel + 1, x :: rest => ((x :: rest).take 64) :: toBlocksFuel fuel ((x :: rest).drop 64)

/-- Split a byte string into 64-byte blocks. -/
def toBlocks (l : List Nat) : List (List Nat) := toBlocksFuel l.length l

/-- Big-endian bytes of a value, fixed width. -/
def beBytes : Nat → Nat → List Nat
  | 0, _ => []
  | k + 1, n => beBytes k (n / 256) ++ [n % 256]

/-- Little-endian bytes of a value, fixed width. -/
def leBytes : Nat → Nat → List Nat
  | 0, _ => []
  | k + 1, n => n % 256 :: leBytes k (n / 256)

/-- A 32-bit word as a single big-endian 32-bit word list entry expanded to 4 bytes. -/
def wordToBytes (n : Nat) : List Nat := beBytes 4 n

/-- SHA-256 of a byte string. -/
def sha256 (msg : List Nat) : List Nat :=
  let len := msg.length
  let zeros := (64 - ((len + 9) % 64)) % 64
  let padded := msg ++ 128 :: List.replicate zeros 0 ++ beBytes 8 (8 * len)
  let fin := (toBlocks padded).foldl (fun st b => shaCompress st (bytesToWords b)) shaH0
  wordToBytes fin.a ++ wordToBytes fin.b ++ wordToBytes fin.c ++ wordToBytes fin.d ++
  wordToBytes fin.e ++ wordToBytes fin.f ++ wordToBytes fin.g ++ wordToBytes fin.h

/-- The all-zero 32-byte hash `[0; 32]`. -/
def zero32 : List Nat := List.replicate 32 0

/-! ## Transaction data model (src/core/src/transaction.rs) -/

/-- `OutPoint`: reference to a previous transaction output. -/
structure OutPoint where
  txid : List Nat
  vout : Nat
deriving Repr, DecidableEq

/-- `TxInput`. -/
structure TxInput where
  previous_output : OutPoint
  script_sig : List Nat
  sequence : Nat
deriving Repr, DecidableEq

/-- `TxOutput`. -/
structure TxOutput where
  value : Nat
  asset_id : List Nat
  script_pubkey : List Nat
deriving Repr, DecidableEq

/-- `Transaction`. -/
structure Transaction where
  version : Nat
  inputs : List TxInput
  outputs : List TxOutput
  lock_time : Nat
deriving Repr, DecidableEq

/-- `PROTOCOL_VERSION` (src/core/src/lib.rs). -/
def PROTOCOL_VERSION : Nat := 1

/-- `INITIAL_BLOCK_REWARD` (src/core/src/lib.rs). -/
def INITIAL_BLOCK_REWARD : Nat := 5000000000

/-- `HALVING_INTERVAL` (src/core/src/lib.rs). -/
def HALVING_INTERVAL : Nat := 210000

/-!
Bincode 1.x default serialization (`bincode::serialize`): fixed-width
little-endian integers, `u64` length prefixes on `Vec`, fixed arrays
written raw without a length.
-/

/-- Bincode encoding of a `u32`. -/
def serU32 (n : Nat) : List Nat := leBytes 4 n

/-- Bincode encoding of a `u64`. -/
def serU64 (n : Nat) : List Nat := leBytes 8 n

/-- Bincode encoding of a `Vec<u8>`: u64 length prefix then raw bytes. -/
def serVecU8 (v : List Nat) : List Nat := serU64 v.length ++ v

/-- Bincode encoding of a `TxInput`. -/
def serTxInput (i : TxInput) : List Nat :=
  i.previous_output.txid ++ serU32 i.previous_output.vout ++
  serVecU8 i.script_sig ++ serU32 i.sequence

/-- Bincode encoding of a `TxOutput`. -/
def serTxOutput (o : TxOutput) : List Nat :=
  serU64 o.value ++ o.asset_id ++ serVecU8 o.script_pubkey

/-- Bincode encoding of a `Transaction`. -/
def serTransaction (tx : Transaction) : List Nat :=
  serU32 tx.version ++
  serU64 tx.inputs.length ++ (tx.inputs.map serTxInput).flatten ++
  serU64 tx.outputs.length ++ (tx.outputs.map serTxOutput).flatten ++
  serU64 tx.lock_time

namespace Transaction

/-- `Transaction::hash`: double SHA-256 of the bincode serialization. -/
def hash (tx : Transaction) : List Nat := sha256 (sha256 (serTransaction tx))

/-- `Transaction::is_coinbase`. -/
def is_coinbase (tx : Transaction) : Bool :=
  tx.inputs.length == 1 &&
    (tx.inputs.getD 0 ⟨⟨zero32, 0⟩, [], 0⟩).previous_output.txid == zero32 &&
    (tx.inputs.getD 0 ⟨⟨zero32, 0⟩, [], 0⟩).previous_output.vout == 0xffffffff

/-- `Transaction::new` (sets `version` to `PROTOCOL_VERSION`). -/
def new (inputs : List TxInput) (outputs : List TxOutput) (lock_time : Nat) : Transaction :=
  ⟨PROTOCOL_VERSION, inputs, outputs, lock_time⟩

/-- `Transaction::create_coinbase_script`: length-prefixed little-endian
height followed by the banner bytes of the string Sedly Genesis. -/
def create_coinbase_script (block_height : Nat) : List Nat :=
  8 :: leBytes 8 block_height ++
  [0x53, 0x65, 0x64, 0x6c, 0x79, 0x20, 0x47, 0x65, 0x6e, 0x65, 0x73, 0x69, 0x73]

/-- `Transaction::coinbase`. -/
def coinbase (reward_address : List Nat) (block_height : Nat) (reward : Nat) : Transaction :=
  Transaction.new
    [⟨⟨zero32, 0xffffffff⟩, create_coinbase_script block_height, 0xffffffff⟩]
    [⟨reward, zero32, reward_address⟩]
    0

/-- `Transaction::genesis`: coinbase with the banner bytes of the string
Sedly - Fair Launch Blockchain and no outputs. -/
def genesis : Transaction :=
  Transaction.new
    [⟨⟨zero32, 0xffffffff⟩,
      [0x53, 0x65, 0x64, 0x6c, 0x79, 0x20, 0x2d, 0x20, 0x46, 0x61, 0x69, 0x72, 0x20,
       0x4c, 0x61, 0x75, 0x6e, 0x63, 0x68, 0x20, 0x42, 0x6c, 0x6f, 0x63, 0x6b, 0x63,
       0x68, 0x61, 0x69, 0x6e],
      0xffffffff⟩]
    []
    0

/-- `Transaction::is_valid` (structural checks only; the source ends in a
TODO for signatures and scripts). -/
def is_valid (tx : Transaction) : Bool :=
  if tx.inputs.isEmpty then false
  else if !tx.is_coinbase && tx.outputs.isEmpty then false
  else if tx.outputs.any (fun o => o.value == 0) then false
  else true

end Transaction

/-! ## Block data model (src/core/src/block.rs) -/

/-- `BlockHeader`. -/
structure BlockHeader where
  version : Nat
  previous_hash : List Nat
  merkle_root : List Nat
  timestamp : Nat
  bits : Nat
  nonce : Nat
  height : Nat
deriving Repr, DecidableEq

/-- `Block`. -/
structure Block where
  header : BlockHeader
  transactions : List Transaction
deriving Repr, DecidableEq

/-- Bincode encoding of a `BlockHeader` (96 bytes). -/
def serBlockHeader (h : BlockHeader) : List Nat :=
  serU32 h.version ++ h.previous_hash ++ h.merkle_root ++
  serU64 h.timestamp ++ serU32 h.bits ++ serU64 h.nonce ++ serU64 h.height

/-- `bits_to_target` (src/core/src/block.rs).  Returns `none` when the Rust
code panics: for exponent above 32 the index `32 - shift - 3` underflows. -/
def bits_to_target (bits : Nat) : Option (List Nat) :=
  let exponent := bits >>> 24
  let mantissa := bits &&& 0x00ffffff
  if exponent ≤ 3 then
    let m := mantissa >>> (8 * (3 - exponent))
    -- target[28], target[29], target[30] hold the three mantissa bytes
    some (List.replicate 28 0 ++ [m % 256, (m >>> 8) % 256, (m >>> 16) % 256, 0])
  else if exponent ≤ 32 then
    let shift := exponent - 3
    -- target[32-shift-3] = low byte, target[32-shift-2] = middle byte,
    -- target[32-shift-1] = high byte of the mantissa
    some (List.replicate (32 - shift - 3) 0 ++
          [mantissa % 256, (mantissa >>> 8) % 256, (mantissa >>> 16) % 256] ++
          List.replicate shift 0)
  else
    none

/-- The `size` computed by `target_to_bits`: 32 minus the index of the first
non-zero byte (0 when the target is all zero). -/
def targetSize (target : List Nat) : Nat :=
  32 - ((target.findIdx? (fun b => b ≠ 0)).getD 32)

/-- `target_to_bits` (src/core/src/block.rs).  Returns `none` when the Rust
code panics: for `size` 1 or 2 it indexes past the end of the array. -/
def target_to_bits (target : List Nat) : Option Nat :=
  let size := targetSize target
  if size = 0 then some 0
  else if size ≤ 2 then none
  else
    some ((target.getD (32 - size) 0 |||
           (target.getD (32 - size + 1) 0 <<< 8) |||
           (target.getD (32 - size + 2) 0 <<< 16)) ||| (size <<< 24))

/-- Lexicographic `<=` on equal-length byte arrays, as Rust derives for
`[u8; 32]`. -/
def lexLe : List Nat → List Nat → Bool
  | [], [] => true
  | [], _ :: _ => true
  | _ :: _, [] => false
  | x :: xs, y :: ys => if x < y then true else if y < x then false else lexLe xs ys

namespace BlockHeader

/-- `BlockHeader::hash`: double SHA-256 of the bincode serialization. -/
def hash (h : BlockHeader) : List Nat := sha256 (sha256 (serBlockHeader h))

/-- `BlockHeader::target`. -/
def target (h : BlockHeader) : Option (List Nat) := bits_to_target h.bits

/-- `BlockHeader::meets_difficulty` (`none` models the panic inside
`bits_to_target`). -/
def meets_difficulty (h : BlockHeader) : Option Bool :=
  (target h).map (fun t => lexLe (hash h) t)

/-- `BlockHeader::new` with the wall-clock timestamp passed explicitly. -/
def mkNew (now version : Nat) (previous_hash merkle_root : List Nat)
    (bits height : Nat) : BlockHeader :=
  ⟨version, previous_hash, merkle_root, now, bits, 0, height⟩

end BlockHeader

/-- One level of the Merkle collapse, following the `chunks(2)` loop of
`Block::calculate_merkle_root`: full pairs are concatenated, a trailing odd
element is concatenated with itself, and SHA-256 is applied once. -/
def merkleLevel : List (List Nat) → List (List Nat)
  | [] => []
  | [h] => [sha256 (h ++ h)]
  | h1 :: h2 :: rest => sha256 (h1 ++ h2) :: merkleLevel rest

/-- The `while hashes.len() > 1` loop of `Block::calculate_merkle_root`,
on a fuel argument so that the kernel can evaluate it.  Each level maps
`n ≥ 2` elements to `(n+1)/2 < n`, so `hs.length` fuel always reaches a
single element; `merkleCollapse_loop` below certifies the loop equation. -/
def merkleCollapseFuel : Nat → List (List Nat) → List Nat
  | 0, hs => hs.getD 0 zero32
  | fuel + 1, hs =>
    if 2 ≤ hs.length then merkleCollapseFuel fuel (merkleLevel hs)
    else hs.getD 0 zero32

/-- The `while hashes.len() > 1` loop of `Block::calculate_merkle_root`. -/
def merkleCollapse (hs : List (List Nat)) : List Nat := merkleCollapseFuel hs.length hs

namespace Block

/-- `Block::calculate_merkle_root`. -/
def calculate_merkle_root (transactions : List Transaction) : List Nat :=
  if transactions.isEmpty then zero32
  else merkleCollapse (transactions.map Transaction.hash)

/-- `Block::hash`. -/
def hash (b : Block) : List Nat := b.header.hash

/-- `Block::new` with the wall-clock timestamp passed explicitly. -/
def mkNew (now : Nat) (previous_hash : List Nat) (transactions : List Transaction)
    (bits height : Nat) : Block :=
  ⟨BlockHeader.mkNew now PROTOCOL_VERSION previous_hash
      (calculate_merkle_root transactions) bits height,
   transactions⟩

/-- `Block::is_valid` (`none` models the panic inside `bits_to_target`).
The source checks proof of work, the merkle root and non-emptiness; the
per-transaction check is an unimplemented TODO. -/
def is_valid (b : Block) : Option Bool :=
  (b.header.meets_difficulty).map (fun pow =>
    if !pow then false
    else if calculate_merkle_root b.transactions ≠ b.header.merkle_root then false
    else if b.transactions.isEmpty then false
    else true)

end Block

/-!
Spec-side Merkle definitions, written from the specification text: at each
level, for i in 0, 2, 4, …, combine `h[i] || h[i+1]` if the pair exists,
else `h[i] || h[i]`, apply SHA-256 once; iterate until one element remains.
-/

/-- One collapse level, indexed as in the specification text. -/
def merkleLevelSpec (hs : List (List Nat)) : List (List Nat) :=
  (List.range ((hs.length + 1) / 2)).map (fun i =>
    sha256 (hs.getD (2 * i) zero32 ++ hs.getD (2 * i + 1) (hs.getD (2 * i) zero32)))

/-- Iterate the spec-side collapse until one element remains (fuel form,
mirroring `merkleCollapseFuel`). -/
def merkleFixSpecFuel : Nat → List (List Nat) → List Nat
  | 0, hs => hs.getD 0 zero32
  | fuel + 1, hs =>
    if 2 ≤ hs.length then merkleFixSpecFuel fuel (merkleLevelSpec hs)
    else hs.getD 0 zero32

/-- Iterate the spec-side collapse until one element remains. -/
def merkleFixSpec (hs : List (List Nat)) : List Nat := merkleFixSpecFuel hs.length hs

/-- Spec-side Merkle root over a txid list. -/
def merkleRootSpec (txids : List (List Nat)) : List Nat :=
  if txids = [] then zero32 else merkleFixSpec txids

/-! ## Difficulty controller (src/core/src/difficulty.rs)

The controller stores `f64` values (`adjustment_factor`,
`actual_time_per_block`) and performs three floating-point operations.
Two of them — `expected as f64 / actual as f64` with the clamp
`.max(min).min(max)`, and `target_block_time as f64 / avg` — are modelled
exactly with `ℚ`, with the division-by-zero case (`+∞` in IEEE, which the
clamp sends to the maximum factor) made explicit.  The third,
`(target_u64 as f64 * scale_factor) as u64` inside `scale_target`, is kept
as a parameter `mulF : ℚ → Nat → Nat` (scale factor, then the `u64`
operand); every theorem that needs it assumes only `mulF sf 0 = 0`, which
IEEE guarantees (`0.0` times any factor is `0.0` or NaN, and Rust's
float-to-integer cast sends both to `0`).
-/

/-- `TARGET_BLOCK_TIME` (src/core/src/lib.rs). -/
def TARGET_BLOCK_TIME : Nat := 120

/-- `DIFFICULTY_ADJUSTMENT_INTERVAL` (src/core/src/lib.rs). -/
def DIFFICULTY_ADJUSTMENT_INTERVAL : Nat := 144

/-- `MAX_DIFFICULTY_ADJUSTMENT` (src/core/src/lib.rs). -/
def MAX_DIFFICULTY_ADJUSTMENT : ℚ := 4

/-- `DifficultyAdjuster`. -/
structure DifficultyAdjuster where
  target_block_time : Nat
  adjustment_interval : Nat
  max_adjustment_factor : ℚ
  min_adjustment_factor : ℚ
deriving Repr, DecidableEq

/-- `DifficultyAdjuster::new`. -/
def DifficultyAdjuster.new : DifficultyAdjuster :=
  ⟨TARGET_BLOCK_TIME, DIFFICULTY_ADJUSTMENT_INTERVAL,
   MAX_DIFFICULTY_ADJUSTMENT, 1 / MAX_DIFFICULTY_ADJUSTMENT⟩

/-- `DifficultyAdjustment`. -/
structure DifficultyAdjustment where
  current_bits : Nat
  new_bits : Nat
  adjustment_factor : ℚ
  actual_time_per_block : ℚ
  needs_adjustment : Bool
deriving Repr, DecidableEq

/-- Decidable equality for `Except`, so that results of fallible
operations can be evaluated on concrete inputs. -/
instance {ε α : Type} [DecidableEq ε] [DecidableEq α] : DecidableEq (Except ε α)
  | .ok a, .ok b =>
    if h : a = b then .isTrue (by rw [h])
    else .isFalse (by intro hh; cases hh; exact h rfl)
  | .error e, .error f =>
    if h : e = f then .isTrue (by rw [h])
    else .isFalse (by intro hh; cases hh; exact h rfl)
  | .ok _, .error _ => .isFalse (by intro hh; cases hh)
  | .error _, .ok _ => .isFalse (by intro hh; cases hh)

/-- `DifficultyError` (payload strings dropped). -/
inductive DifficultyError where
  | insufficientBlocks (required provided : Nat)
  | invalidBlockSequence
  | bitsOutOfRange (bits min_bits max_bits : Nat)
  | insufficientData
  | targetOverflow
  | invalidAdjustmentFactor
deriving Repr, DecidableEq

/-- `DifficultyAdjuster::verify_block_sequence`: consecutive heights and
non-decreasing timestamps between adjacent blocks. -/
def verify_block_sequence : List Block → Bool
  | [] => true
  | [_] => true
  | b1 :: b2 :: rest =>
    (b2.header.height == w64 (b1.header.height + 1)) &&
    (b1.header.timestamp ≤ b2.header.timestamp) &&
    verify_block_sequence (b2 :: rest)

/-- `u64::from_be_bytes(target[24..32])` in `scale_target`. -/
def targetLow8 (target : List Nat) : Nat :=
  (((((((target.getD 24 0 * 256 + target.getD 25 0) * 256 + target.getD 26 0) * 256 +
    target.getD 27 0) * 256 + target.getD 28 0) * 256 + target.getD 29 0) * 256 +
    target.getD 30 0) * 256 + target.getD 31 0)

/-- `DifficultyAdjuster::scale_target`: scales only the low 8 bytes, leaving
bytes 0..24 zero. -/
def scale_target (mulF : ℚ → Nat → Nat) (target : List Nat) (scale_factor : ℚ) : List Nat :=
  List.replicate 24 0 ++ beBytes 8 (w64 (mulF scale_factor (targetLow8 target)))

/-- `DifficultyAdjuster::adjust_bits` — `none` models the panics inside
`bits_to_target` and `target_to_bits`. -/
def adjust_bits (mulF : ℚ → Nat → Nat) (current_bits : Nat) (factor : ℚ) : Option Nat :=
  (bits_to_target current_bits).bind (fun ct =>
    target_to_bits (scale_target mulF ct (1 / factor)))

/-- Placeholder block used only as `getD` default under a length guard. -/
def dfltBlock : Block := ⟨⟨0, zero32, zero32, 0, 0, 0, 0⟩, []⟩

/-- `DifficultyAdjuster::calculate_next_difficulty`. -/
def DifficultyAdjuster.calculate_next_difficulty (adj : DifficultyAdjuster)
    (mulF : ℚ → Nat → Nat) (recent_blocks : List Block) (current_bits : Nat) :
    Option (Except DifficultyError DifficultyAdjustment) :=
  if recent_blocks.length < adj.adjustment_interval then
    some (.error (.insufficientBlocks adj.adjustment_interval recent_blocks.length))
  else if !verify_block_sequence recent_blocks then
    some (.error .invalidBlockSequence)
  else
    let first := recent_blocks.getD 0 dfltBlock
    let last := recent_blocks.getD (recent_blocks.length - 1) dfltBlock
    -- u64 subtraction; the sequence check above rules out underflow
    let actual_time := last.header.timestamp - first.header.timestamp
    let expected_time := adj.target_block_time * (adj.adjustment_interval - 1)
    let actual_time_per_block : ℚ :=
      (actual_time : ℚ) / ((adj.adjustment_interval - 1 : Nat) : ℚ)
    -- IEEE: expected/0.0 = +∞, and the clamp below sends +∞ to the max factor
    let raw : ℚ :=
      if actual_time = 0 then adj.max_adjustment_factor
      else (expected_time : ℚ) / (actual_time : ℚ)
    let factor := min (max raw adj.min_adjustment_factor) adj.max_adjustment_factor
    -- `none` (the panic inside `adjust_bits`) propagates, as the Rust `?` would
    (if factor = 1 then some current_bits else adjust_bits mulF current_bits factor).map
      (fun nb =>
        .ok ⟨current_bits, nb, factor, actual_time_per_block, nb != current_bits⟩)

/-- `DifficultyAdjuster::predict_next_adjustment`. -/
def DifficultyAdjuster.predict_next_adjustment (adj : DifficultyAdjuster)
    (mulF : ℚ → Nat → Nat) (recent_block_times : List Nat) (current_bits : Nat) :
    Option (Except DifficultyError DifficultyAdjustment) :=
  if recent_block_times.isEmpty then
    some (.error .insufficientData)
  else
    let avg : ℚ := (recent_block_times.sum : ℚ) / (recent_block_times.length : ℚ)
    -- IEEE: target/0.0 = +∞, and the clamp below sends +∞ to the max factor
    let predicted : ℚ :=
      if avg = 0 then adj.max_adjustment_factor else (adj.target_block_time : ℚ) / avg
    let bounded := min (max predicted adj.min_adjustment_factor) adj.max_adjustment_factor
    -- `none` (the panic inside `adjust_bits`) propagates, as the Rust `?` would
    (if bounded = 1 then some current_bits else adjust_bits mulF current_bits bounded).map
      (fun nb => .ok ⟨current_bits, nb, bounded, avg, nb != current_bits⟩)

/-- `DifficultyAdjuster::genesis_difficulty`. -/
def genesis_difficulty : Nat := 0x1d00ffff

/-! ## Storage layer (src/core/src/storage.rs)

The RocksDB column families are modelled as typed association lists with
first-match lookup (a put prepends, so later puts shadow earlier ones,
matching overwrite semantics).  The bincode encode/decode pair applied by
the store to every value round-trips, so values are stored directly.  The
three metadata keys actually used are modelled as three fields.  RocksDB
I/O errors have no counterpart in the pure model, so lookups return plain
values and `store_block` is infallible here; theorems about failing writes
take the store operation as a parameter instead.
-/

/-- `UtxoEntry`. -/
structure UtxoEntry where
  output : TxOutput
  block_height : Nat
  is_coinbase : Bool
deriving Repr, DecidableEq

/-- `TxLocation`. -/
structure TxLocation where
  block_hash : List Nat
  tx_index : Nat
  block_height : Nat
deriving Repr, DecidableEq

/-- `BlockchainDB`: the five column families plus the metadata keys. -/
structure BlockchainDB where
  blocks : List (List Nat × Block)
  block_index : List (Nat × List Nat)
  utxo : List (List Nat × UtxoEntry)
  tx_index : List (List Nat × TxLocation)
  meta_best_block : List Nat
  meta_height : Nat
  meta_genesis : List Nat
deriving Repr, DecidableEq

/-- First-match association-list lookup (keyed column family get). -/
def kvGet {α : Type} (m : List (List Nat × α)) (k : List Nat) : Option α :=
  (m.find? (fun p => p.1 == k)).map (fun p => p.2)

/-- Column family put (prepend; shadows any earlier binding). -/
def kvPut {α : Type} (m : List (List Nat × α)) (k : List Nat) (v : α) :
    List (List Nat × α) := (k, v) :: m

/-- Column family delete. -/
def kvDel {α : Type} (m : List (List Nat × α)) (k : List Nat) :
    List (List Nat × α) := m.filter (fun p => p.1 != k)

/-- `BlockchainDB::outpoint_key`: txid bytes then big-endian vout. -/
def outpoint_key (op : OutPoint) : List Nat := op.txid ++ beBytes 4 op.vout

/-- `BlockchainDB::update_utxo_for_transaction` (the per-transaction part
of the `store_block` batch). -/
def update_utxo_for_transaction (db : BlockchainDB) (tx : Transaction)
    (block_hash : List Nat) (block_height tx_index : Nat) : BlockchainDB :=
  let tx_hash := tx.hash
  let db1 := { db with tx_index := kvPut db.tx_index tx_hash ⟨block_hash, tx_index, block_height⟩ }
  let db2 :=
    if tx.is_coinbase then db1
    else tx.inputs.foldl
      (fun d i => { d with utxo := kvDel d.utxo (outpoint_key i.previous_output) }) db1
  (tx.outputs.enum).foldl
    (fun d ov =>
      { d with utxo := kvPut d.utxo (outpoint_key ⟨tx_hash, ov.1⟩)
                 ⟨ov.2, block_height, tx.is_coinbase⟩ }) db2

/-- `BlockchainDB::store_block`: the whole atomic batch. -/
def store_block (db : BlockchainDB) (block : Block) : BlockchainDB :=
  let block_hash := block.hash
  let height := block.header.height
  let db1 := { db with blocks := kvPut db.blocks block_hash block }
  let db2 := { db1 with block_index := (height, block_hash) :: db1.block_index }
  let db3 := (block.transactions.enum).foldl
    (fun d ti => update_utxo_for_transaction d ti.2 block_hash height ti.1) db2
  { db3 with meta_best_block := block_hash, meta_height := height }

/-- `BlockchainDB::get_utxo`. -/
def get_utxo (db : BlockchainDB) (op : OutPoint) : Option UtxoEntry :=
  kvGet db.utxo (outpoint_key op)

/-- `BlockchainDB::is_utxo_spendable` (the `Ok` payload; the `Err` paths of
the Rust signature are RocksDB I/O failures absent from the pure model). -/
def is_utxo_spendable (db : BlockchainDB) (op : OutPoint) (current_height : Nat) : Bool :=
  match get_utxo db op with
  | some utxo =>
    if utxo.is_coinbase then
      -- u64 addition `block_height + 100`
      decide (w64 (utxo.block_height + 100) ≤ current_height)
    else true
  | none => false

/-! ## Consensus state manager (src/consensus/src/state.rs) -/

/-- `ValidatorInfo`. -/
structure ValidatorInfo where
  public_key : List Nat
  power : Int
  active : Bool
deriving Repr, DecidableEq

/-- `ConsensusState`. -/
structure ConsensusState where
  height : Nat
  best_block_hash : List Nat
  difficulty_bits : Nat
  total_transactions : Nat
  validators : List (String × ValidatorInfo)
  app_hash : List Nat
deriving Repr, DecidableEq

/-- `ConsensusState::default`. -/
def ConsensusState.dflt : ConsensusState := ⟨0, zero32, 0x1d00ffff, 0, [], zero32⟩

/-- `StateError` (payload strings dropped). -/
inductive StateError where
  | invalidState
  | noHistoryAvailable
  | serializationError
  | validatorError
  | updateFailed
deriving Repr, DecidableEq

/-- `StateManager` (the two `Arc<RwLock<..>>` cells as plain fields; the
claims below are about sequential behaviour). -/
structure StateManager where
  state : ConsensusState
  history : List ConsensusState
  max_history : Nat
deriving Repr, DecidableEq

namespace StateManager

/-- `StateManager::new` (the only constructor; `max_history` is 100). -/
def new (initial_state : ConsensusState) : StateManager := ⟨initial_state, [], 100⟩

/-- `StateManager::update_state`: push the current state into the bounded
FIFO history, then run the updater.  (The Rust updater mutates in place, so
on updater failure a partial mutation could persist; the only updaters in
the source are infallible, and this model keeps the old state then.) -/
def update_state (sm : StateManager)
    (updater : ConsensusState → Except StateError ConsensusState) :
    Except StateError Unit × StateManager :=
  let pushed := sm.history ++ [sm.state]
  let trimmed := if sm.max_history < pushed.length then pushed.drop 1 else pushed
  match updater sm.state with
  | .ok s => (.ok (), ⟨s, trimmed, sm.max_history⟩)
  | .error e => (.error e, ⟨sm.state, trimmed, sm.max_history⟩)

/-- `StateManager::rollback`. -/
def rollback (sm : StateManager) : Except StateError Unit × StateManager :=
  match sm.history.getLast? with
  | some previous_state => (.ok (), ⟨previous_state, sm.history.dropLast, sm.max_history⟩)
  | none => (.error .noHistoryAvailable, sm)

/-- `StateManager::advance_block`. -/
def advance_block (sm : StateManager) (new_block_hash : List Nat)
    (transactions_count : Nat) (new_difficulty : Option Nat) :
    Except StateError Unit × StateManager :=
  sm.update_state (fun state =>
    let h := w64 (state.height + 1)
    .ok { state with
          height := h,
          best_block_hash := new_block_hash,
          total_transactions := w64 (state.total_transactions + transactions_count),
          difficulty_bits := new_difficulty.getD state.difficulty_bits,
          app_hash := sha256 (new_block_hash ++ beBytes 8 h) })

end StateManager

/-! ## ABCI application (src/consensus/src/abci.rs) -/

/-- `ChainState` as defined in abci.rs — note it has exactly these four
fields. -/
structure ChainState where
  height : Nat
  best_block_hash : List Nat
  total_transactions : Nat
  current_bits : Nat
deriving Repr, DecidableEq

/-- `BlockBuilder`. -/
structure BlockBuilder where
  transactions : List Transaction
  height : Nat
  previous_hash : List Nat
  timestamp : Nat
  bits : Nat
deriving Repr, DecidableEq

/-- `StorageError` kinds (payloads dropped). -/
inductive StorageError where
  | databaseOpen
  | columnFamilyNotFound
  | readFailed
  | writeFailed
  | serializationFailed
  | deserializationFailed
  | invalidData
  | blockNotFound
  | utxoNotFound
deriving Repr, DecidableEq

/-- `SedlyApp` (the difficulty adjuster carries no state used by the
operations modelled here). -/
structure SedlyApp where
  db : BlockchainDB
  current_block : Option BlockBuilder
  mempool : List (List Nat × Transaction)
  chain_state : ChainState
deriving Repr, DecidableEq

/-- `ResponseCommit`. -/
structure ResponseCommit where
  data : List Nat
  retain_height : Int
deriving Repr, DecidableEq

/-- `ResponseInfo` (the constant `data`/version fields are omitted; the
fields below are the ones computed from chain state). -/
structure ResponseInfo where
  last_block_height : Int
  last_block_app_hash : List Nat
deriving Repr, DecidableEq

namespace SedlyApp

/-- `SedlyApp::commit`.  `store` is the database write (the pure model of a
successful write is `fun db b => .ok (store_block db b)`; a failing RocksDB
write is any `store` returning `.error`); `now` is the wall-clock second
used by `Block::new` for the header timestamp. -/
def commit (store : BlockchainDB → Block → Except StorageError BlockchainDB)
    (now : Nat) (app : SedlyApp) : SedlyApp × ResponseCommit :=
  match app.current_block with
  | some builder =>
    -- `take()` has already emptied the builder slot at this point
    let block := Block.mkNew now builder.previous_hash builder.transactions
      builder.bits builder.height
    match store app.db block with
    | .ok db =>
      ({ app with
         db := db,
         current_block := none,
         chain_state :=
           ⟨builder.height, block.hash,
            w64 (app.chain_state.total_transactions + block.transactions.length),
            builder.bits⟩ },
       ⟨block.hash, 0⟩)
    | .error _ =>
      ({ app with current_block := none }, ⟨[], 0⟩)
  | none => (app, ⟨[], 0⟩)

/-- `SedlyApp::info` (`Application::info`): reports the chain-state height
and, as `last_block_app_hash`, the best block hash. -/
def info (app : SedlyApp) : ResponseInfo :=
  ⟨(app.chain_state.height : Int), app.chain_state.best_block_hash⟩

end SedlyApp

/-! ## Claim-side definitions and concrete test fixtures -/

/-- The mantissa placement asserted by the specification for exponent
greater than 3, written from the claim: the three mantissa bytes occupy
positions `32−exponent..32−exponent+3`, interpreted big-endian (most
significant byte at the lowest index of that range), remaining bytes
zero.  Modelled from the claim for comparison with `bits_to_target`. -/
def claimedTargetBE (e m : Nat) : List Nat :=
  List.replicate (32 - e) 0 ++
  [(m >>> 16) % 256, (m >>> 8) % 256, m % 256] ++
  List.replicate (e - 3) 0

/-- The placement `bits_to_target` actually uses for exponent greater
than 3: the three mantissa bytes occupy positions
`32−exponent..32−exponent+3` with the LEAST significant byte at the lowest
index of that range, remaining bytes zero. -/
def leTargetHigh (e m : Nat) : List Nat :=
  List.replicate (32 - e) 0 ++
  [m % 256, (m >>> 8) % 256, (m >>> 16) % 256] ++
  List.replicate (e - 3) 0

/-- The placement `bits_to_target` uses for exponent at most 3: the
mantissa is shifted right by `8·(3−exponent)` and its three bytes land at
positions 28, 29, 30, least significant byte first. -/
def leTargetLow (e m : Nat) : List Nat :=
  List.replicate 28 0 ++
  [(m >>> (8 * (3 - e))) % 256, ((m >>> (8 * (3 - e))) >>> 8) % 256,
   ((m >>> (8 * (3 - e))) >>> 16) % 256, 0]

/-- Compact-bits values the difficulty controller can emit: the genesis
value, plus every `new_bits` produced from an emittable value by
`calculate_next_difficulty` or `predict_next_adjustment`, for any model
`mulF` of the float multiply-and-cast that sends a zero operand to zero
(which IEEE arithmetic plus Rust's saturating cast guarantees). -/
inductive EmittableBits : Nat → Prop where
  | genesis : EmittableBits genesis_difficulty
  | calcStep (mulF : ℚ → Nat → Nat) (blocks : List Block) (b : Nat)
      (a : DifficultyAdjustment) :
      (∀ sf, mulF sf 0 = 0) → EmittableBits b →
      DifficultyAdjuster.new.calculate_next_difficulty mulF blocks b =
        some (Except.ok a) →
      EmittableBits a.new_bits
  | predictStep (mulF : ℚ → Nat → Nat) (times : List Nat) (b : Nat)
      (a : DifficultyAdjustment) :
      (∀ sf, mulF sf 0 = 0) → EmittableBits b →
      DifficultyAdjuster.new.predict_next_adjustment mulF times b =
        some (Except.ok a) →
      EmittableBits a.new_bits

/-- Exact-rational model of `(x as f64 * sf) as u64`, valid whenever the
float computation is exact (as it is at every input where theorems below
instantiate it). -/
def ratMulTrunc (sf : ℚ) (n : Nat) : Nat := (Int.floor ((n : ℚ) * sf)).toNat

/-- A synthetic block at height `i` carrying only the header fields the
difficulty controller reads. -/
def mkTestBlock (interval bits i : Nat) : Block :=
  ⟨⟨1, zero32, zero32, 1704067200 + i * interval, bits, 0, i⟩, []⟩

/-- `count` consecutive synthetic blocks spaced `interval` seconds. -/
def testBlocks (count interval bits : Nat) : List Block :=
  (List.range count).map (mkTestBlock interval bits)

/-- A structurally invalid transaction (no inputs). -/
def txBad : Transaction := ⟨1, [], [], 0⟩

/-- A block that satisfies proof of work (bits `0x20ffffff` admits almost
every hash), has a matching merkle root, is non-empty, and contains only
the invalid transaction `txBad`. -/
def c5Block : Block := ⟨⟨1, zero32, txBad.hash, 0, 0x20ffffff, 0, 0⟩, [txBad]⟩

/-- A database write that always succeeds, performing the `store_block`
batch. -/
def storePure : BlockchainDB → Block → Except StorageError BlockchainDB :=
  fun db b => Except.ok (store_block db b)

/-- A database write that always fails. -/
def failStore : BlockchainDB → Block → Except StorageError BlockchainDB :=
  fun _ _ => Except.error StorageError.writeFailed

/-- An empty database. -/
def emptyDB : BlockchainDB := ⟨[], [], [], [], zero32, 0, zero32⟩

/-- A block builder for height 1 with no delivered transactions. -/
def builder1 : BlockBuilder := ⟨[], 1, zero32, 0, genesis_difficulty⟩

/-- An application holding `builder1` as the block under construction. -/
def appWithBuilder : SedlyApp :=
  ⟨emptyDB, some builder1, [], ⟨0, zero32, 1, genesis_difficulty⟩⟩

/-- The block `commit` seals from `builder1` at wall-clock second
1704067200. -/
def blk1 : Block := Block.mkNew 1704067200 zero32 [] genesis_difficulty 1

/-- A database holding a single coinbase UTXO created at height 5. -/
def dbCoinbase5 : BlockchainDB :=
  ⟨[], [], [(outpoint_key ⟨zero32, 0⟩, ⟨⟨5000000000, zero32, []⟩, 5, true⟩)],
   [], zero32, 0, zero32⟩

/-! # Theorems -/

set_option maxRecDepth 100000

/-- C10: for every beneficiary and height, `Transaction::coinbase` with
reward 0 still carries exactly one output, of value 0, and that
transaction fails `Transaction::is_valid`, which rejects every output of
value 0 with no exemption for coinbase. -/
theorem coinbase_zero_reward_invalid (beneficiary : List Nat) (height : Nat) :
    (Transaction.coinbase beneficiary height 0).outputs = [⟨0, zero32, beneficiary⟩] ∧
    (Transaction.coinbase beneficiary height 0).is_valid = false := by
  refine ⟨rfl, ?_⟩
  simp [Transaction.is_valid, Transaction.coinbase, Transaction.new]

/-- C4: `is_utxo_spendable` returns true iff a UTXO entry exists for the
outpoint and either it is not coinbase or the current height has reached
`block_height + 100`; for a coinbase entry this is exactly the maturity
predicate.  The hypothesis is the `u64` representability of
`block_height + 100`, under which the code's wrapping addition agrees
with the claim's arithmetic. -/
theorem is_utxo_spendable_iff (db : BlockchainDB) (op : OutPoint) (h : Nat)
    (hw : (get_utxo db op).all
      (fun u => decide (u.block_height + 100 < 18446744073709551616)) = true) :
    (is_utxo_spendable db op h = true ↔
      ∃ u, get_utxo db op = some u ∧
        (u.is_coinbase = false ∨ u.block_height + 100 ≤ h)) ∧
    (∀ u, get_utxo db op = some u → u.is_coinbase = true →
      is_utxo_spendable db op h = decide (u.block_height + 100 ≤ h)) := by
  cases hq : get_utxo db op with
  | none =>
    refine ⟨?_, ?_⟩
    · unfold is_utxo_spendable
      rw [hq]
      simp
    · intro u hu
      exact Option.noConfusion hu
  | some u =>
    have hwu : u.block_height + 100 < 18446744073709551616 := by
      rw [hq] at hw
      simpa using hw
    have hww : w64 (u.block_height + 100) = u.block_height + 100 :=
      Nat.mod_eq_of_lt hwu
    have hval : is_utxo_spendable db op h =
        (if u.is_coinbase = true then decide (u.block_height + 100 ≤ h) else true) := by
      unfold is_utxo_spendable
      rw [hq]
      dsimp only
      rw [hww]
    refine ⟨?_, ?_⟩
    · constructor
      · intro hsp
        rw [hval] at hsp
        by_cases hc : u.is_coinbase = true
        · rw [if_pos hc] at hsp
          exact ⟨u, rfl, Or.inr (of_decide_eq_true hsp)⟩
        · exact ⟨u, rfl, Or.inl (Bool.eq_false_iff.mpr hc)⟩
      · rintro ⟨v, hv, hvc⟩
        cases Option.some.inj hv
        rw [hval]
        by_cases hc : u.is_coinbase = true
        · rw [if_pos hc]
          rcases hvc with hvc | hvc
          · rw [hc] at hvc; cases hvc
          · exact decide_eq_true hvc
        · rw [if_neg hc]
    · intro v hv hc
      cases Option.some.inj hv
      rw [hval, if_pos hc]

/-- Witness for C4 at a concrete database with a coinbase entry created at
height 5, queried at height 105. -/
theorem is_utxo_spendable_iff_witness :
    is_utxo_spendable dbCoinbase5 ⟨zero32, 0⟩ 105 = decide (5 + 100 ≤ 105) :=
  (is_utxo_spendable_iff dbCoinbase5 ⟨zero32, 0⟩ 105 (by decide)).2
    ⟨⟨5000000000, zero32, []⟩, 5, true⟩ (by decide) rfl

theorem trim_getLast (l : List ConsensusState) (x : ConsensusState) (mh : Nat)
    (h : 0 < mh) :
    (if mh < (l ++ [x]).length then (l ++ [x]).drop 1 else l ++ [x]).getLast? =
      some x := by
  split
  · match l with
    | [] => simp_all
    | a :: l' =>
      show ((a :: (l' ++ [x])).drop 1).getLast? = some x
      simp only [List.drop_one, List.tail_cons]
      exact List.getLast?_concat _
  · exact List.getLast?_concat _

/-- C8: a `rollback` immediately following `advance_block` succeeds and
restores exactly the state held before the advance, and `rollback` on an
empty history fails with `NoHistoryAvailable` leaving everything
unchanged.  The hypothesis `0 < max_history` holds for every manager the
source can build (`StateManager::new` sets it to 100). -/
theorem rollback_restores_state (sm : StateManager) (new_hash : List Nat)
    (cnt : Nat) (newBits : Option Nat) (hmax : 0 < sm.max_history) :
    ((sm.advance_block new_hash cnt newBits).2.rollback).1 = Except.ok () ∧
    ((sm.advance_block new_hash cnt newBits).2.rollback).2.state = sm.state ∧
    (sm.history = [] →
      sm.rollback = (Except.error StateError.noHistoryAvailable, sm)) := by
  refine ⟨?_, ?_, ?_⟩
  · unfold StateManager.advance_block StateManager.update_state StateManager.rollback
    rw [trim_getLast _ _ _ hmax]
  · unfold StateManager.advance_block StateManager.update_state StateManager.rollback
    rw [trim_getLast _ _ _ hmax]
  · intro hh
    unfold StateManager.rollback
    rw [hh]
    rfl

/-- Witness for C8: the S6 scenario — from the default state, advance with
hash `[1; 32]`, 10 transactions and new bits `0x1D00FFFE`, then roll back;
and rollback of a fresh manager fails. -/
theorem rollback_restores_state_witness :
    (((StateManager.new ConsensusState.dflt).advance_block
        (List.replicate 32 1) 10 (some 0x1d00fffe)).2.rollback).2.state =
      ConsensusState.dflt ∧
    (StateManager.new ConsensusState.dflt).rollback =
      (Except.error StateError.noHistoryAvailable,
       StateManager.new ConsensusState.dflt) :=
  ⟨(rollback_restores_state (StateManager.new ConsensusState.dflt)
      (List.replicate 32 1) 10 (some 0x1d00fffe) (by decide)).2.1,
   (rollback_restores_state (StateManager.new ConsensusState.dflt)
      (List.replicate 32 1) 10 (some 0x1d00fffe) (by decide)).2.2 rfl⟩

/-- C9: every `commit` leaves the builder slot empty — also when the store
write fails, in which case the response carries empty data and the chain
state (and database) are unchanged, so the same built block can never be
re-committed; a `commit` with no builder changes nothing. -/
theorem commit_clears_builder
    (store : BlockchainDB → Block → Except StorageError BlockchainDB)
    (now : Nat) (app : SedlyApp) :
    (SedlyApp.commit store now app).1.current_block = none ∧
    (∀ b e, app.current_block = some b →
      store app.db (Block.mkNew now b.previous_hash b.transactions b.bits b.height) =
        Except.error e →
      SedlyApp.commit store now app =
        (⟨app.db, none, app.mempool, app.chain_state⟩, ⟨[], 0⟩)) ∧
    (app.current_block = none →
      SedlyApp.commit store now app = (app, ⟨[], 0⟩)) := by
  refine ⟨?_, ?_, ?_⟩
  · unfold SedlyApp.commit
    cases hb : app.current_block with
    | none => exact hb
    | some b =>
      dsimp only
      cases store app.db (Block.mkNew now b.previous_hash b.transactions b.bits b.height) with
      | ok db => rfl
      | error e => rfl
  · intro b e hb hs
    unfold SedlyApp.commit
    rw [hb]
    dsimp only
    rw [hs]
  · intro hb
    unfold SedlyApp.commit
    rw [hb]

/-- Witness for C9: a failing write on a concrete app with a builder. -/
theorem commit_clears_builder_witness :
    SedlyApp.commit failStore 0 appWithBuilder =
      (⟨emptyDB, none, [], ⟨0, zero32, 1, genesis_difficulty⟩⟩, ⟨[], 0⟩) :=
  (commit_clears_builder failStore 0 appWithBuilder).2.1 builder1
    StorageError.writeFailed rfl rfl

/-- C7 amended: after a `commit` that successfully stores the block built
at height h, the chain state holds exactly height = h, best_block_hash =
the block hash, current_bits = the builder bits and the transaction count
added to total_transactions, and the response carries the block hash with
retain_height 0.  (The claim's further `app_hash` conjunct is refuted by
`commit_no_app_hash_cex`: abci's `ChainState` has no app-hash component
and `commit` computes no digest.) -/
theorem commit_updates_chain_state
    (store : BlockchainDB → Block → Except StorageError BlockchainDB)
    (now : Nat) (app : SedlyApp) (builder : BlockBuilder) (dbNew : BlockchainDB)
    (hb : app.current_block = some builder)
    (hs : store app.db
        (Block.mkNew now builder.previous_hash builder.transactions
          builder.bits builder.height) = Except.ok dbNew) :
    SedlyApp.commit store now app =
      (⟨dbNew, none, app.mempool,
        ⟨builder.height,
         (Block.mkNew now builder.previous_hash builder.transactions
           builder.bits builder.height).hash,
         w64 (app.chain_state.total_transactions + builder.transactions.length),
         builder.bits⟩⟩,
       ⟨(Block.mkNew now builder.previous_hash builder.transactions
           builder.bits builder.height).hash, 0⟩) := by
  unfold SedlyApp.commit
  rw [hb]
  dsimp only
  rw [hs]
  rfl

/-- Witness for C7 at a concrete app, builder and successful store. -/
theorem commit_updates_chain_state_witness :
    SedlyApp.commit storePure 1704067200 appWithBuilder =
      (⟨store_block emptyDB blk1, none, [],
        ⟨1, blk1.hash, 1, genesis_difficulty⟩⟩,
       ⟨blk1.hash, 0⟩) :=
  commit_updates_chain_state storePure 1704067200 appWithBuilder builder1
    (store_block emptyDB blk1) rfl rfl

/-- C7 counterexample: committing `builder1` leaves a chain state with
exactly four components and no app hash; the application's reported app
hash (`Info.last_block_app_hash`, its only app-hash observable) is the
best block hash, which differs from the digest
SHA-256(block.hash() || h_be) asserted by the claim. -/
theorem commit_no_app_hash_cex :
    SedlyApp.commit storePure 1704067200 appWithBuilder =
      (⟨store_block emptyDB blk1, none, [],
        ⟨1, blk1.hash, 1, genesis_difficulty⟩⟩,
       ⟨blk1.hash, 0⟩) ∧
    (SedlyApp.info (SedlyApp.commit storePure 1704067200 appWithBuilder).1).last_block_app_hash ≠
      sha256 (blk1.hash ++ beBytes 8 1) := by
  exact ⟨by decide, by decide⟩

theorem merkleLevel_length : ∀ hs : List (List Nat),
    (merkleLevel hs).length = (hs.length + 1) / 2
  | [] => by simp [merkleLevel]
  | [h] => by simp [merkleLevel]
  | h1 :: h2 :: rest => by
    simp only [merkleLevel, List.length_cons, merkleLevel_length rest]
    omega

theorem collapseFuel_congr : ∀ (f1 f2 : Nat) (hs : List (List Nat)),
    hs.length ≤ f1 → hs.length ≤ f2 →
    merkleCollapseFuel f1 hs = merkleCollapseFuel f2 hs
  | 0, 0, _, _, _ => rfl
  | 0, _ + 1, hs, h1, _ => by
    have he : hs = [] := List.eq_nil_of_length_eq_zero (by omega)
    subst he
    simp [merkleCollapseFuel]
  | _ + 1, 0, hs, _, h2 => by
    have he : hs = [] := List.eq_nil_of_length_eq_zero (by omega)
    subst he
    simp [merkleCollapseFuel]
  | f1 + 1, f2 + 1, hs, h1, h2 => by
    simp only [merkleCollapseFuel]
    by_cases h : 2 ≤ hs.length
    · rw [if_pos h, if_pos h]
      have hlev := merkleLevel_length hs
      exact collapseFuel_congr f1 f2 (merkleLevel hs) (by omega) (by omega)
    · rw [if_neg h, if_neg h]

/-- The fuel presentation of `merkleCollapse` satisfies exactly the
`while hashes.len() > 1` loop equation of the source. -/
theorem merkleCollapse_loop (hs : List (List Nat)) :
    merkleCollapse hs =
      if 2 ≤ hs.length then merkleCollapse (merkleLevel hs)
      else hs.getD 0 zero32 := by
  by_cases h : 2 ≤ hs.length
  · rw [if_pos h]
    unfold merkleCollapse
    obtain ⟨m, hm⟩ : ∃ m, hs.length = m + 1 := ⟨hs.length - 1, by omega⟩
    have hlev := merkleLevel_length hs
    calc merkleCollapseFuel hs.length hs
        = merkleCollapseFuel (m + 1) hs := by rw [hm]
      _ = merkleCollapseFuel m (merkleLevel hs) := by
          simp only [merkleCollapseFuel]
          rw [if_pos h]
      _ = merkleCollapseFuel (merkleLevel hs).length (merkleLevel hs) :=
          collapseFuel_congr _ _ _ (by omega) (by omega)
  · rw [if_neg h]
    have hcase : hs = [] ∨ ∃ a, hs = [a] := by
      match hs with
      | [] => exact Or.inl rfl
      | [a] => exact Or.inr ⟨a, rfl⟩
      | a :: b :: l => simp only [List.length_cons] at h; omega
    rcases hcase with rfl | ⟨a, rfl⟩
    · unfold merkleCollapse
      show merkleCollapseFuel 0 [] = _
      rw [merkleCollapseFuel]
    · unfold merkleCollapse
      show merkleCollapseFuel 1 [a] = _
      rw [merkleCollapseFuel]
      rw [if_neg (by simp)]

theorem merkleLevel_cons_cons (h1 h2 : List Nat) (rest : List (List Nat)) :
    merkleLevel (h1 :: h2 :: rest) = sha256 (h1 ++ h2) :: merkleLevel rest := rfl

theorem merkleLevelSpec_eq : ∀ hs : List (List Nat), merkleLevelSpec hs = merkleLevel hs
  | [] => by simp [merkleLevelSpec, merkleLevel]
  | [h] => by
    unfold merkleLevelSpec
    show (List.range ((1 + 1) / 2)).map _ = _
    rw [show (1 + 1) / 2 = 1 from rfl, List.range_succ]
    simp only [List.map_cons, List.map_nil, List.getD]
    rfl
  | h1 :: h2 :: rest => by
    have ih := merkleLevelSpec_eq rest
    unfold merkleLevelSpec
    have hl : ((h1 :: h2 :: rest).length + 1) / 2 = (rest.length + 1) / 2 + 1 := by
      simp only [List.length_cons]
      omega
    rw [hl, List.range_succ_eq_map, List.map_cons, List.map_map, merkleLevel_cons_cons]
    refine congrArg₂ List.cons ?_ ?_
    · norm_num [List.getD]
    · rw [← ih]
      unfold merkleLevelSpec
      refine List.map_congr_left ?_
      intro i _
      have e1 : 2 * (Nat.succ i) = 2 * i + 1 + 1 := by omega
      simp only [Function.comp_apply, e1, List.getD_cons_succ]

theorem fixFuel_eq_collapseFuel : ∀ (fuel : Nat) (hs : List (List Nat)),
    merkleFixSpecFuel fuel hs = merkleCollapseFuel fuel hs
  | 0, _ => rfl
  | fuel + 1, hs => by
    simp only [merkleFixSpecFuel, merkleCollapseFuel, merkleLevelSpec_eq]
    by_cases h : 2 ≤ hs.length
    · rw [if_pos h, if_pos h]
      exact fixFuel_eq_collapseFuel fuel _
    · rw [if_neg h, if_neg h]

/-- C1: `Block::calculate_merkle_root` returns the all-zero hash on the
empty list, the single transaction's txid on a singleton, and otherwise
the fixed point of collapsing the txid list level by level, combining
consecutive pairs (a trailing odd element with itself) by one SHA-256 of
the 64-byte concatenation, exactly as the spec-side `merkleRootSpec`
prescribes. -/
theorem calculate_merkle_root_spec (txs : List Transaction) :
    Block.calculate_merkle_root txs = merkleRootSpec (txs.map Transaction.hash) ∧
    Block.calculate_merkle_root [] = zero32 ∧
    (∀ tx : Transaction, Block.calculate_merkle_root [tx] = tx.hash) := by
  refine ⟨?_, rfl, fun tx => rfl⟩
  unfold Block.calculate_merkle_root merkleRootSpec
  by_cases he : txs = []
  · subst he; rfl
  · rw [if_neg (by simp [he]), if_neg (by simp [he])]
    unfold merkleFixSpec merkleCollapse
    exact (fixFuel_eq_collapseFuel _ _).symm

/-- C3 counterexample: at `bits = 0x1D010203` (exponent 29, mantissa
`0x010203`) the code places the LEAST significant mantissa byte `0x03` at
index 3 = 32−29, whereas the claim asserts the most significant byte
`0x01` there. -/
theorem bits_to_target_not_big_endian :
    bits_to_target 0x1d010203 ≠ some (claimedTargetBE 29 0x010203) ∧
    (bits_to_target 0x1d010203).map (fun t => t.getD 3 0) = some 3 ∧
    (claimedTargetBE 29 0x010203).getD 3 0 = 1 := by
  exact ⟨by decide, by decide, by decide⟩

/-- C3 amended: for exponent between 4 and 32 the three mantissa bytes
occupy positions `32−exponent..32−exponent+3` interpreted LITTLE-endian
(least significant byte at the lowest index of the range), remaining
bytes zero; for exponent ≤ 3 the shifted mantissa sits at positions
28..30, also least significant byte first.  (For exponent above 32 the
Rust index computation underflows and the function panics.) -/
theorem bits_to_target_little_endian_placement (bits : Nat) :
    (3 < bits >>> 24 → bits >>> 24 ≤ 32 →
      bits_to_target bits = some (leTargetHigh (bits >>> 24) (bits &&& 0xffffff))) ∧
    (bits >>> 24 ≤ 3 →
      bits_to_target bits = some (leTargetLow (bits >>> 24) (bits &&& 0xffffff))) := by
  constructor
  · intro h3 h32
    have harith : 32 - (bits >>> 24 - 3) - 3 = 32 - bits >>> 24 := by omega
    unfold bits_to_target leTargetHigh
    rw [if_neg (by omega), if_pos h32]
    dsimp only
    rw [harith]
  · intro h3
    unfold bits_to_target leTargetLow
    rw [if_pos h3]

/-- Witness for C3's amended placement at the genesis bits value. -/
theorem bits_to_target_little_endian_placement_witness :
    bits_to_target 0x1d00ffff = some (leTargetHigh 29 0xffff) :=
  (bits_to_target_little_endian_placement 0x1d00ffff).1 (by decide) (by decide)

/-- C5 amended: `Block::is_valid` returns true iff the header hash meets
the target, the merkle root matches recomputation and the transaction
list is non-empty — with NO per-transaction validity conjunct (the source
leaves that as a TODO; `block_is_valid_skips_tx_validity` refutes the
claimed fourth conjunct). -/
theorem block_is_valid_iff (b : Block) (t : List Nat)
    (ht : bits_to_target b.header.bits = some t) :
    (Block.is_valid b = some true ↔
      (lexLe b.hash t = true ∧
       Block.calculate_merkle_root b.transactions = b.header.merkle_root ∧
       b.transactions ≠ [])) := by
  unfold Block.is_valid BlockHeader.meets_difficulty BlockHeader.target
  rw [ht]
  simp only [Option.map_some', Option.some.injEq]
  constructor
  · intro hv
    split_ifs at hv with hpow hmr hemp
    exact ⟨by simpa using hpow, by simpa using hmr, by simpa using hemp⟩
  · rintro ⟨h1, h2, h3⟩
    have h1h : lexLe (BlockHeader.hash b.header) t = true := h1
    rw [if_neg (by simp [h1h]), if_neg (by simp [h2]), if_neg (by simp [h3])]

/-- Witness for C5's amended validity at the concrete block `c5Block`. -/
theorem block_is_valid_iff_witness : Block.is_valid c5Block = some true :=
  (block_is_valid_iff c5Block ([255, 255, 255] ++ List.replicate 29 0)
    (by decide)).2 ⟨by decide, by decide, by decide⟩

/-- C5 counterexample: `c5Block` passes `Block::is_valid` (PoW under the
permissive target `0x20FFFFFF`, matching merkle root, non-empty) although
its only transaction fails `Transaction::is_valid` — refuting the claimed
"every transaction is structurally valid" conjunct. -/
theorem block_is_valid_skips_tx_validity :
    Block.is_valid c5Block = some true ∧
    c5Block.transactions.all Transaction.is_valid = false := by
  exact ⟨by decide, by decide⟩

theorem scale_to_zero_bits (mulF : ℚ → Nat → Nat) (hz : ∀ sf, mulF sf 0 = 0)
    (sf : ℚ) (t : List Nat) (ht : targetLow8 t = 0) :
    target_to_bits (scale_target mulF t sf) = some 0 := by
  unfold scale_target
  rw [ht, hz]
  decide

theorem adjust_bits_emits_zero (mulF : ℚ → Nat → Nat) (hz : ∀ sf, mulF sf 0 = 0)
    (f : ℚ) (b : Nat) (hb : b = genesis_difficulty ∨ b = 0) :
    adjust_bits mulF b f = some 0 := by
  rcases hb with rfl | rfl
  · unfold adjust_bits
    rw [show bits_to_target genesis_difficulty =
          some (List.replicate 3 0 ++ [255, 255, 0] ++ List.replicate 26 0) from by decide]
    exact scale_to_zero_bits mulF hz _ _ (by decide)
  · unfold adjust_bits
    rw [show bits_to_target 0 = some (List.replicate 28 0 ++ [0, 0, 0, 0]) from by decide]
    exact scale_to_zero_bits mulF hz _ _ (by decide)

theorem calc_new_bits_cases (adj : DifficultyAdjuster) (mulF : ℚ → Nat → Nat)
    (blocks : List Block) (b : Nat) (a : DifficultyAdjustment)
    (h : adj.calculate_next_difficulty mulF blocks b = some (Except.ok a)) :
    a.new_bits = b ∨ ∃ f, adjust_bits mulF b f = some a.new_bits := by
  unfold DifficultyAdjuster.calculate_next_difficulty at h
  split at h
  · exact Except.noConfusion (Option.some.inj h)
  · split at h
    · exact Except.noConfusion (Option.some.inj h)
    · rw [Option.map_eq_some'] at h
      obtain ⟨nb, hnb, hok⟩ := h
      cases Except.ok.inj hok
      rcases ite_eq_iff.mp hnb with ⟨hc, hb⟩ | ⟨hc, hb⟩
      · left
        exact (Option.some.inj hb).symm
      · right
        exact ⟨_, hb⟩

theorem predict_new_bits_cases (adj : DifficultyAdjuster) (mulF : ℚ → Nat → Nat)
    (times : List Nat) (b : Nat) (a : DifficultyAdjustment)
    (h : adj.predict_next_adjustment mulF times b = some (Except.ok a)) :
    a.new_bits = b ∨ ∃ f, adjust_bits mulF b f = some a.new_bits := by
  unfold DifficultyAdjuster.predict_next_adjustment at h
  split at h
  · exact Except.noConfusion (Option.some.inj h)
  · rw [Option.map_eq_some'] at h
    obtain ⟨nb, hnb, hok⟩ := h
    cases Except.ok.inj hok
    rcases ite_eq_iff.mp hnb with ⟨hc, hb⟩ | ⟨hc, hb⟩
    · left
      exact (Option.some.inj hb).symm
    · right
      exact ⟨_, hb⟩

theorem emittable_cases (b : Nat) (h : EmittableBits b) :
    b = genesis_difficulty ∨ b = 0 := by
  induction h with
  | genesis => exact Or.inl rfl
  | calcStep mulF blocks b a hz hb hcalc ih =>
    rcases calc_new_bits_cases DifficultyAdjuster.new mulF blocks b a hcalc with hnb | ⟨f, hf⟩
    · rw [hnb]; exact ih
    · rw [adjust_bits_emits_zero mulF hz f b ih] at hf
      exact Or.inr (Option.some.inj hf).symm
  | predictStep mulF times b a hz hb hpred ih =>
    rcases predict_new_bits_cases DifficultyAdjuster.new mulF times b a hpred with hnb | ⟨f, hf⟩
    · rw [hnb]; exact ih
    · rw [adjust_bits_emits_zero mulF hz f b ih] at hf
      exact Or.inr (Option.some.inj hf).symm

/-- C2: the compact codec round-trips every bits value the difficulty
controller can emit starting from the genesis value 0x1D00FFFF.  From the
genesis value every `adjust_bits` re-encoding yields 0 (the low 8 target
bytes read by `scale_target` are zero there, and they stay zero), and both
0x1D00FFFF and 0 round-trip through `bits_to_target`/`target_to_bits`. -/
theorem emittable_bits_roundtrip (b : Nat) (h : EmittableBits b) :
    (bits_to_target b).bind target_to_bits = some b := by
  rcases emittable_cases b h with rfl | rfl
  · decide
  · decide

/-- Witness for C2 at the genesis bits value. -/
theorem emittable_bits_roundtrip_witness :
    (bits_to_target genesis_difficulty).bind target_to_bits = some genesis_difficulty :=
  emittable_bits_roundtrip genesis_difficulty EmittableBits.genesis

/-- C6 counterexample: 144 consecutive blocks spaced 30 seconds (so the
raw factor 17160/4290 = 4 is exact, also in `f64`) with
`current_bits = 0x21000001` satisfy every precondition of the claim, yet
`calculate_next_difficulty` does not succeed: re-encoding the scaled
target panics (`bits_to_target` with exponent 33 underflows its index
computation), modelled as `none`. -/
theorem calculate_next_difficulty_panics_cex :
    DifficultyAdjuster.new.calculate_next_difficulty ratMulTrunc
      (testBlocks 144 30 0x1d00ffff) 0x21000001 = none ∧
    (testBlocks 144 30 0x1d00ffff).length = 144 ∧
    verify_block_sequence (testBlocks 144 30 0x1d00ffff) = true := by
  have hadj : ∀ F : ℚ, adjust_bits ratMulTrunc 0x21000001 F = none := by
    intro F
    unfold adjust_bits
    rw [show bits_to_target 0x21000001 = none from by decide]
    rfl
  refine ⟨?_, by decide, by decide⟩
  unfold DifficultyAdjuster.calculate_next_difficulty
  rw [if_neg (by decide), if_neg (by decide)]
  dsimp only
  rw [show ((testBlocks 144 30 0x1d00ffff).getD ((testBlocks 144 30 0x1d00ffff).length - 1)
        dfltBlock).header.timestamp -
      ((testBlocks 144 30 0x1d00ffff).getD 0 dfltBlock).header.timestamp = 4290 from by decide]
  rw [if_neg (by decide)]
  rw [if_neg (by
    norm_num [DifficultyAdjuster.new, MAX_DIFFICULTY_ADJUSTMENT, TARGET_BLOCK_TIME,
      DIFFICULTY_ADJUSTMENT_INTERVAL, min_def, max_def])]
  rw [hadj]
  rfl

/-- C6 amended: for at least 144 blocks with consecutive heights and
non-decreasing timestamps, whenever `calculate_next_difficulty` returns a
value (it can panic in the target re-encoding for degenerate
current_bits, see `calculate_next_difficulty_panics_cex`) the
adjustment factor lies in [0.25, 4.0]; and when the elapsed time equals
the expected 120·143 seconds it always succeeds with new_bits =
current_bits and needs_adjustment = false. -/
theorem calculate_next_difficulty_bounds (mulF : ℚ → Nat → Nat)
    (blocks : List Block) (current_bits : Nat)
    (hlen : 144 ≤ blocks.length)
    (hseq : verify_block_sequence blocks = true) :
    (∀ a, DifficultyAdjuster.new.calculate_next_difficulty mulF blocks current_bits =
        some (Except.ok a) →
      1/4 ≤ a.adjustment_factor ∧ a.adjustment_factor ≤ 4) ∧
    ((blocks.getD (blocks.length - 1) dfltBlock).header.timestamp -
        (blocks.getD 0 dfltBlock).header.timestamp = 120 * 143 →
      DifficultyAdjuster.new.calculate_next_difficulty mulF blocks current_bits =
        some (Except.ok ⟨current_bits, current_bits, 1, 120, false⟩)) := by
  have hg1 : ¬(blocks.length < DifficultyAdjuster.new.adjustment_interval) := by
    simp only [DifficultyAdjuster.new, DIFFICULTY_ADJUSTMENT_INTERVAL]
    omega
  have hg2 : ¬((!verify_block_sequence blocks) = true) := by simp [hseq]
  have hmin : DifficultyAdjuster.new.min_adjustment_factor = 1/4 := by
    norm_num [DifficultyAdjuster.new, MAX_DIFFICULTY_ADJUSTMENT]
  have hmax : DifficultyAdjuster.new.max_adjustment_factor = 4 := rfl
  constructor
  · intro a ha
    unfold DifficultyAdjuster.calculate_next_difficulty at ha
    rw [if_neg hg1, if_neg hg2] at ha
    rw [Option.map_eq_some'] at ha
    obtain ⟨nb, _, hok⟩ := ha
    cases Except.ok.inj hok
    constructor
    · show (1:ℚ)/4 ≤ min _ DifficultyAdjuster.new.max_adjustment_factor
      rw [hmax]
      refine le_min ?_ (by norm_num)
      rw [← hmin]
      exact le_max_right _ _
    · show min _ DifficultyAdjuster.new.max_adjustment_factor ≤ 4
      rw [hmax]
      exact min_le_right _ _
  · intro hact
    unfold DifficultyAdjuster.calculate_next_difficulty
    rw [if_neg hg1, if_neg hg2]
    dsimp only
    rw [hact]
    rw [if_neg (by norm_num)]
    have hfac : min (max (((DifficultyAdjuster.new.target_block_time *
          (DifficultyAdjuster.new.adjustment_interval - 1) : Nat) : ℚ) /
            ((120 * 143 : Nat) : ℚ))
        DifficultyAdjuster.new.min_adjustment_factor)
        DifficultyAdjuster.new.max_adjustment_factor = 1 := by
      rw [hmin, hmax]
      norm_num [DifficultyAdjuster.new, TARGET_BLOCK_TIME, DIFFICULTY_ADJUSTMENT_INTERVAL,
        min_def, max_def]
    rw [if_pos hfac, hfac]
    simp only [Option.map_some', Option.some.injEq, Except.ok.injEq,
      DifficultyAdjustment.mk.injEq, bne_self_eq_false]
    norm_num [DifficultyAdjuster.new, DIFFICULTY_ADJUSTMENT_INTERVAL]

/-- Witness for C6 at 144 perfectly spaced blocks (120 s apart) and the
genesis bits value. -/
theorem calculate_next_difficulty_bounds_witness :
    DifficultyAdjuster.new.calculate_next_difficulty ratMulTrunc
      (testBlocks 144 120 0x1d00ffff) 0x1d00ffff =
      some (Except.ok ⟨0x1d00ffff, 0x1d00ffff, 1, 120, false⟩) :=
  (calculate_next_difficulty_bounds ratMulTrunc (testBlocks 144 120 0x1d00ffff) 0x1d00ffff
    (by decide) (by decide)).2 (by decide)

end Sedly
